import Mathlib

set_option maxHeartbeats 1000000

/-!
Shallow embedding of the lookup facade of the unbound Go package
(file lookup.go).  The external resolver (Resolve / ResolveAsync) and the
reverse-address constructor (dns.ReverseAddr) live outside this file and
are passed to every lookup as function arguments.  A Go runtime panic
(nil-pointer dereference or a failed type assertion on a resource record)
is modelled by the outer Option of each lookup result being none.
-/

/-- Model of a net.IP address: its byte sequence. -/
structure IP where
  bytes : List Nat
deriving DecidableEq, Repr

/-- Go errors are opaque to this subsystem; they are only passed through. -/
abbrev Err := String

/-- Model of dns.RR_A: an address record. -/
structure RR_A where
  A : IP
deriving DecidableEq, Repr

/-- Model of dns.RR_AAAA: an IPv6 address record. -/
structure RR_AAAA where
  AAAA : IP
deriving DecidableEq, Repr

/-- Model of dns.RR_PTR: a reverse-lookup name record. -/
structure RR_PTR where
  Ptr : String
deriving DecidableEq, Repr

/-- Model of dns.RR_MX: a mail-exchange record. -/
structure RR_MX where
  Preference : Nat
  Mx : String
deriving DecidableEq, Repr

/-- Model of dns.RR_TXT: a text record holding several text segments. -/
structure RR_TXT where
  Txt : List String
deriving DecidableEq, Repr

/-- Model of dns.RR_SRV: a service-location record (RFC 2782). -/
structure RR_SRV where
  Priority : Nat
  Weight : Nat
  Port : Nat
  Target : String
deriving DecidableEq, Repr

/-- A polymorphic resource record, as stored in Result.Rr ([]dns.RR). -/
inductive RR where
  | A : RR_A → RR
  | AAAA : RR_AAAA → RR
  | PTR : RR_PTR → RR
  | MX : RR_MX → RR
  | TXT : RR_TXT → RR
  | SRV : RR_SRV → RR
deriving DecidableEq, Repr

/-- The decoded outcome of one query: canonical name plus record list. -/
structure Result where
  CanonName : String
  Rr : List RR
deriving DecidableEq, Repr

/-- The DNS record types issued by this facade (dns.TypeA and friends). -/
inductive RType where
  | A
  | AAAA
  | PTR
  | MX
  | TXT
  | SRV
deriving DecidableEq, Repr

/-- The DNS record classes used by this facade (dns.ClassINET only). -/
inductive ClassCode where
  | INET
deriving DecidableEq, Repr

/-- The external resolver handle: u.Resolve(name, rtype, rclass) returning
either a Result or an error, exactly the black-box signature of the spec. -/
abbrev Resolver := String → RType → ClassCode → Except Err Result

/-- The Go type assertion rr.(*dns.RR_A): none models the panic on a
record of a different variant. -/
def RR.asA : RR → Option RR_A
  | RR.A a => some a
  | _ => none

/-- The Go type assertion rr.(*dns.RR_AAAA). -/
def RR.asAAAA : RR → Option RR_AAAA
  | RR.AAAA a => some a
  | _ => none

/-- The Go type assertion rr.(*dns.RR_PTR). -/
def RR.asPTR : RR → Option RR_PTR
  | RR.PTR a => some a
  | _ => none

/-- The Go type assertion rr.(*dns.RR_MX). -/
def RR.asMX : RR → Option RR_MX
  | RR.MX a => some a
  | _ => none

/-- The Go type assertion rr.(*dns.RR_TXT). -/
def RR.asTXT : RR → Option RR_TXT
  | RR.TXT a => some a
  | _ => none

/-- The Go type assertion rr.(*dns.RR_SRV). -/
def RR.asSRV : RR → Option RR_SRV
  | RR.SRV a => some a
  | _ => none

/-- The append loop "for _, rr := range r.Rr" that downcasts every record:
none models the panic raised at the first record of the wrong variant. -/
def downcastAll (f : RR → Option α) : List RR → Option (List α)
  | [] => some []
  | rr :: rest =>
    match f rr, downcastAll f rest with
    | some a, some rest2 => some (a :: rest2)
    | _, _ => none

/-- LookupAddr from lookup.go: reverse conversion, one PTR query, then the
Ptr field of every record.  reverseAddr stands for dns.ReverseAddr.  A Go
return pair (name, err) is modelled as (List String × Option Err). -/
def LookupAddr (reverseAddr : String → Except Err String) (resolve : Resolver)
    (addr : String) : Option (List String × Option Err) :=
  match reverseAddr addr with
  | Except.error e => some ([], some e)
  | Except.ok reverse =>
    match resolve reverse RType.PTR ClassCode.INET with
    | Except.error e => some ([], some e)
    | Except.ok r =>
      match downcastAll RR.asPTR r.Rr with
      | none => none
      | some ptrs => some (ptrs.map RR_PTR.Ptr, none)

/-- LookupMX from lookup.go: one MX query, collect every RR_MX record. -/
def LookupMX (resolve : Resolver) (name : String) :
    Option (List RR_MX × Option Err) :=
  match resolve name RType.MX ClassCode.INET with
  | Except.error e => some ([], some e)
  | Except.ok r =>
    match downcastAll RR.asMX r.Rr with
    | none => none
    | some mxs => some (mxs, none)

/-- LookupTXT from lookup.go: one TXT query, flatten the text segments of
every record in order (txt = append(txt, rr.Txt...)). -/
def LookupTXT (resolve : Resolver) (name : String) :
    Option (List String × Option Err) :=
  match resolve name RType.TXT ClassCode.INET with
  | Except.error e => some ([], some e)
  | Except.ok r =>
    match downcastAll RR.asTXT r.Rr with
    | none => none
    | some txts => some ((txts.map RR_TXT.Txt).flatten, none)

/-- One full run of the inner loop of the sort in LookupSRV at a fixed
outer index i, started at j = i.  The first argument is the current
content of srv[i], the list is srv[i+1 ..]; whenever
srv[i].Priority > srv[j].Priority the two slots are swapped.  The value
returned is the final content of slot i together with the final contents
of the slots after it. -/
def srvSortPass (x : RR_SRV) : List RR_SRV → RR_SRV × List RR_SRV
  | [] => (x, [])
  | y :: ys =>
    if x.Priority > y.Priority then
      ((srvSortPass y ys).1, x :: (srvSortPass y ys).2)
    else
      ((srvSortPass x ys).1, y :: (srvSortPass x ys).2)

theorem srvSortPass_length (x : RR_SRV) (l : List RR_SRV) :
    (srvSortPass x l).2.length = l.length := by
  induction l generalizing x with
  | nil => rfl
  | cons y ys ih =>
    simp only [srvSortPass]
    split <;> simp [ih]

/-- The outer loop of the sort in LookupSRV: the first argument counts the
remaining outer iterations (Go runs exactly len(srv) of them, one per
slot), the list holds the slots from the current index on.  Each iteration
runs the inner pass on the current slot and moves to the slots after
it. -/
def srvSortOuter : Nat → List RR_SRV → List RR_SRV
  | 0, l => l
  | _ + 1, [] => []
  | n + 1, x :: xs => (srvSortPass x xs).1 :: srvSortOuter n (srvSortPass x xs).2

/-- The nested-loop swap sort of LookupSRV ("Dumb bubble sort ... to sort
by priority"): len(srv) outer iterations over the whole list. -/
def srvSort (l : List RR_SRV) : List RR_SRV :=
  srvSortOuter l.length l

/-- LookupSRV from lookup.go: build the query name (RFC 2782 unless both
service and proto are empty), issue one SRV query, downcast every record,
swap-sort by priority, and always return the empty canonical name. -/
def LookupSRV (resolve : Resolver) (service proto name : String) :
    Option (String × List RR_SRV × Option Err) :=
  match (if service = "" ∧ proto = "" then
          resolve name RType.SRV ClassCode.INET
        else
          resolve ("_" ++ service ++ "._" ++ proto ++ "." ++ name)
            RType.SRV ClassCode.INET) with
  | Except.error e => some ("", [], some e)
  | Except.ok r =>
    match downcastAll RR.asSRV r.Rr with
    | none => none
    | some srv => some ("", srvSort srv, none)

/-- The query name of a service lookup, stated after the words of the
spec: if both selectors are empty, the name itself; otherwise the
underscore-prefixed concatenation. -/
def srvSpecName (service proto name : String) : String :=
  if service = "" ∧ proto = "" then name
  else "_" ++ service ++ "._" ++ proto ++ "." ++ name

/-- Everything LookupSRV does after its single query, as a function of
that query result alone. -/
def srvProcess (res : Except Err Result) :
    Option (String × List RR_SRV × Option Err) :=
  match res with
  | Except.error e => some ("", [], some e)
  | Except.ok r =>
    match downcastAll RR.asSRV r.Rr with
    | none => none
    | some srv => some ("", srvSort srv, none)

/-- Modelled from the spec: the source never draws from any source of
randomness, so an explicit entropy stream threaded through LookupSRV is
returned unconsumed next to the ordinary result. -/
def LookupSRVWithEntropy (entropy : List Nat) (resolve : Resolver)
    (service proto name : String) :
    Option (String × List RR_SRV × Option Err) × List Nat :=
  (LookupSRV resolve service proto name, entropy)

/-- One operation performed on a channel of *Result values.  The payload
of a send is an Option Result because the Go channel carries a nilable
pointer. -/
inductive ChanEvent where
  | send : Option Result → ChanEvent
  | close : ChanEvent
deriving DecidableEq, Repr

/-- Bool test for the close event. -/
def ChanEvent.isClose : ChanEvent → Bool
  | ChanEvent.close => true
  | _ => false

/-- lookupHelper from lookup.go, as the trace of operations it performs on
the channel it was handed: close is deferred, so it is the last event on
every path; on error the function returns before sending. -/
def lookupHelper (e : Option Err) (r : Option Result) : List ChanEvent :=
  match e with
  | some _ => [ChanEvent.close]
  | none => [ChanEvent.send r, ChanEvent.close]

/-- The value a receiver obtains from a channel with the given operation
trace: the payload of the first send, or nil (none) once the channel is
closed without a send. -/
def recvClosed : List ChanEvent → Option Result
  | ChanEvent.send r :: _ => r
  | _ => none

/-- Modelled from the spec: u.ResolveAsync (declared in this repository
outside lookup.go) resolves the query and invokes the callback exactly
once with the context, the error and the result; here the callback is
lookupHelper and the trace of channel operations it performs is
returned. -/
def ResolveAsyncChan (resolve : Resolver) (host : String) (t : RType) :
    List ChanEvent :=
  match resolve host t ClassCode.INET with
  | Except.error e => lookupHelper (some e) none
  | Except.ok r => lookupHelper none (some r)

/-- LookupIP from lookup.go: two asynchronous queries (A and AAAA) each
completed through lookupHelper into its own channel, both channels
received in order, then both record lists appended.  Receiving nil from a
channel that was closed without a send makes the range over ra.Rr a
nil-pointer dereference, modelled as none.  The declared err result is
never assigned in the source, so the error component is none on every
non-panicking path. -/
def LookupIP (resolve : Resolver) (host : String) :
    Option (List IP × Option Err) :=
  match recvClosed (ResolveAsyncChan resolve host RType.A),
        recvClosed (ResolveAsyncChan resolve host RType.AAAA) with
  | some ra, some raaaa =>
    match downcastAll RR.asA ra.Rr, downcastAll RR.asAAAA raaaa.Rr with
    | some la, some laaaa =>
      some (la.map RR_A.A ++ laaaa.map RR_AAAA.AAAA, none)
    | _, _ => none
  | _, _ => none

/-- LookupHost from lookup.go: LookupIP, an error check that can never
fire (LookupIP always reports a nil error), then ip.String() on every
address in order.  The string conversion lives in the external net
package and is passed in as ipString. -/
def LookupHost (ipString : IP → String) (resolve : Resolver) (host : String) :
    Option (List String × Option Err) :=
  match LookupIP resolve host with
  | none => none
  | some (_, some e) => some ([], some e)
  | some (ipaddrs, none) => some (ipaddrs.map ipString, none)

theorem srvSortPass_perm (x : RR_SRV) (l : List RR_SRV) :
    List.Perm ((srvSortPass x l).1 :: (srvSortPass x l).2) (x :: l) := by
  induction l generalizing x with
  | nil => simp [srvSortPass]
  | cons y ys ih =>
    simp only [srvSortPass]
    split
    · exact (List.Perm.swap x _ _).trans (List.Perm.cons x (ih y))
    · exact (List.Perm.swap y _ _).trans
        ((List.Perm.cons y (ih x)).trans (List.Perm.swap x y ys))

theorem srvSortPass_min (x : RR_SRV) (l : List RR_SRV) :
    ∀ z ∈ x :: l, (srvSortPass x l).1.Priority ≤ z.Priority := by
  induction l generalizing x with
  | nil =>
    intro z hz
    simp only [List.mem_singleton] at hz
    subst hz
    simp [srvSortPass]
  | cons y ys ih =>
    intro z hz
    simp only [srvSortPass]
    simp only [List.mem_cons] at hz
    split
    case isTrue h =>
      rcases hz with hz | hz | hz
      · rw [hz]
        exact le_trans (ih y y (List.mem_cons_self y ys)) (le_of_lt h)
      · rw [hz]
        exact ih y y (List.mem_cons_self y ys)
      · exact ih y z (List.mem_cons_of_mem y hz)
    case isFalse h =>
      rcases hz with hz | hz | hz
      · rw [hz]
        exact ih x x (List.mem_cons_self x ys)
      · rw [hz]
        exact le_trans (ih x x (List.mem_cons_self x ys)) (not_lt.mp h)
      · exact ih x z (List.mem_cons_of_mem x hz)

theorem srvSortOuter_perm (n : Nat) (l : List RR_SRV) :
    List.Perm (srvSortOuter n l) l := by
  induction n generalizing l with
  | zero => exact List.Perm.refl l
  | succ n ih =>
    cases l with
    | nil => exact List.Perm.refl _
    | cons x xs =>
      simp only [srvSortOuter]
      exact (List.Perm.cons _ (ih _)).trans (srvSortPass_perm x xs)

theorem srvSortOuter_sorted (n : Nat) (l : List RR_SRV) (h : l.length ≤ n) :
    (srvSortOuter n l).Pairwise (fun a b => a.Priority ≤ b.Priority) := by
  induction n generalizing l with
  | zero =>
    cases l with
    | nil => simp [srvSortOuter]
    | cons x xs => simp at h
  | succ n ih =>
    cases l with
    | nil => simp [srvSortOuter]
    | cons x xs =>
      simp only [srvSortOuter]
      refine List.Pairwise.cons ?_ (ih _ ?_)
      · intro z hz
        have hz1 : z ∈ (srvSortPass x xs).2 :=
          (srvSortOuter_perm n _).mem_iff.mp hz
        have hz2 : z ∈ (srvSortPass x xs).1 :: (srvSortPass x xs).2 :=
          List.mem_cons_of_mem _ hz1
        have hz3 : z ∈ x :: xs := (srvSortPass_perm x xs).mem_iff.mp hz2
        exact srvSortPass_min x xs z hz3
      · rw [srvSortPass_length]
        simp only [List.length_cons] at h
        omega

theorem srvSort_perm (l : List RR_SRV) : List.Perm (srvSort l) l :=
  srvSortOuter_perm l.length l

theorem srvSort_sorted (l : List RR_SRV) :
    (srvSort l).Pairwise (fun a b => a.Priority ≤ b.Priority) :=
  srvSortOuter_sorted l.length l (le_refl _)

theorem downcastAll_asA_map (l : List RR_A) :
    downcastAll RR.asA (l.map RR.A) = some l := by
  induction l with
  | nil => rfl
  | cons a as ih => simp [downcastAll, RR.asA, ih]

theorem downcastAll_asAAAA_map (l : List RR_AAAA) :
    downcastAll RR.asAAAA (l.map RR.AAAA) = some l := by
  induction l with
  | nil => rfl
  | cons a as ih => simp [downcastAll, RR.asAAAA, ih]

theorem downcastAll_asPTR_map (l : List RR_PTR) :
    downcastAll RR.asPTR (l.map RR.PTR) = some l := by
  induction l with
  | nil => rfl
  | cons a as ih => simp [downcastAll, RR.asPTR, ih]

theorem downcastAll_asSRV_map (l : List RR_SRV) :
    downcastAll RR.asSRV (l.map RR.SRV) = some l := by
  induction l with
  | nil => rfl
  | cons a as ih => simp [downcastAll, RR.asSRV, ih]

theorem lookupSRV_query_eq (resolve : Resolver) (s p n : String) :
    LookupSRV resolve s p n =
      srvProcess (resolve (srvSpecName s p n) RType.SRV ClassCode.INET) := by
  by_cases h : s = "" ∧ p = ""
  · simp [LookupSRV, srvProcess, srvSpecName, h]
  · simp [LookupSRV, srvProcess, srvSpecName, h]

/-- Claim C1: the claim says a per-family resolver failure is absorbed by
LookupIP (successful family returned, nil error; both failing gives an
empty list, nil error).  The code instead receives nil from the channel
that lookupHelper closed without sending and dereferences it, a runtime
panic (modelled as none): this theorem evaluates LookupIP at a resolver
whose A query fails while AAAA succeeds, at the mirrored one, and at one
where both families fail, and shows every run panics. -/
theorem C1_per_family_failure_panics :
    LookupIP (fun _ t _ =>
      match t with
      | RType.A => Except.error "resolver failure"
      | _ => Except.ok ⟨"", [RR.AAAA ⟨⟨[0, 0, 0, 1]⟩⟩]⟩) "host" = none ∧
    LookupIP (fun _ t _ =>
      match t with
      | RType.AAAA => Except.error "resolver failure"
      | _ => Except.ok ⟨"", [RR.A ⟨⟨[192, 0, 2, 1]⟩⟩]⟩) "host" = none ∧
    LookupIP (fun _ _ _ => Except.error "resolver failure") "host" = none := by
  decide

/-- Claim C2, counterexample: the swap sort of LookupSRV is not stable.
With records of priorities 2, 2, 1 (targets a, b, c in resolver order),
the code returns c, b, a; a stable priority sort would return c, a, b. -/
theorem C2_counterexample :
    LookupSRV (fun _ _ _ => Except.ok ⟨"",
        [RR.SRV ⟨2, 0, 0, "a"⟩, RR.SRV ⟨2, 0, 0, "b"⟩,
         RR.SRV ⟨1, 0, 0, "c"⟩]⟩) "" "" "x" =
      some ("", [⟨1, 0, 0, "c"⟩, ⟨2, 0, 0, "b"⟩, ⟨2, 0, 0, "a"⟩], none) ∧
    ([(⟨1, 0, 0, "c"⟩ : RR_SRV), ⟨2, 0, 0, "b"⟩, ⟨2, 0, 0, "a"⟩] ≠
      [(⟨1, 0, 0, "c"⟩ : RR_SRV), ⟨2, 0, 0, "a"⟩, ⟨2, 0, 0, "b"⟩]) := by
  decide

/-- Claim C2, amended: the record list LookupSRV returns is sorted by
priority in ascending order (and the sort permutes the decoded records),
but the sort is not stable: records of equal priority need not keep their
relative order from the resolver response. -/
theorem C2_sorted_by_priority :
    (∀ l : List RR_SRV,
      List.Perm (srvSort l) l ∧
      (srvSort l).Pairwise (fun a b => a.Priority ≤ b.Priority)) ∧
    (∀ (resolve : Resolver) (s p n cn : String) (lst : List RR_SRV)
        (e : Option Err),
      LookupSRV resolve s p n = some (cn, lst, e) →
      lst.Pairwise (fun a b => a.Priority ≤ b.Priority)) := by
  constructor
  · intro l
    exact ⟨srvSort_perm l, srvSort_sorted l⟩
  · intro resolve s p n cn lst e h
    rw [lookupSRV_query_eq] at h
    cases hres : resolve (srvSpecName s p n) RType.SRV ClassCode.INET with
    | error e2 =>
      rw [hres] at h
      simp only [srvProcess, Option.some.injEq, Prod.mk.injEq] at h
      rw [← h.2.1]
      exact List.Pairwise.nil
    | ok r =>
      rw [hres] at h
      simp only [srvProcess] at h
      cases hdc : downcastAll RR.asSRV r.Rr with
      | none => rw [hdc] at h; simp at h
      | some dec =>
        rw [hdc] at h
        simp only [Option.some.injEq, Prod.mk.injEq] at h
        rw [← h.2.1]
        exact srvSort_sorted dec

/-- Claim C2, witness: the amended theorem applied to a concrete resolver
response with priorities 2, 2, 1. -/
theorem C2_sorted_by_priority_witness :
    List.Pairwise (fun a b => a.Priority ≤ b.Priority)
      [(⟨1, 0, 0, "c"⟩ : RR_SRV), ⟨2, 0, 0, "b"⟩, ⟨2, 0, 0, "a"⟩] :=
  C2_sorted_by_priority.2
    (fun _ _ _ => Except.ok ⟨"",
      [RR.SRV ⟨2, 0, 0, "a"⟩, RR.SRV ⟨2, 0, 0, "b"⟩, RR.SRV ⟨1, 0, 0, "c"⟩]⟩)
    "" "" "x" "" _ none (by decide)

/-- Claim C3: the claim (and the doc comment of LookupSRV) says records of
equal priority are randomized by weight per RFC 2782.  The code never
consults Weight nor any source of randomness: with two records of equal
priority the output order is the decoded order, identical whichever record
carries the larger weight, on every run. -/
theorem C3_no_weight_randomization :
    LookupSRV (fun _ _ _ => Except.ok ⟨"",
        [RR.SRV ⟨1, 100, 0, "first"⟩, RR.SRV ⟨1, 0, 0, "second"⟩]⟩)
      "" "" "x" =
      some ("", [⟨1, 100, 0, "first"⟩, ⟨1, 0, 0, "second"⟩], none) ∧
    LookupSRV (fun _ _ _ => Except.ok ⟨"",
        [RR.SRV ⟨1, 0, 0, "first"⟩, RR.SRV ⟨1, 100, 0, "second"⟩]⟩)
      "" "" "x" =
      some ("", [⟨1, 0, 0, "first"⟩, ⟨1, 100, 0, "second"⟩], none) := by
  decide

/-- Claim C4: lookupHelper closes its channel exactly once on every code
path, the deferred close is the last channel operation, and on the error
path nothing is sent; and every channel LookupIP hands to ResolveAsync is
completed by exactly such a helper trace. -/
theorem C4_channel_closed_once :
    ∀ (e : Option Err) (r : Option Result),
      (lookupHelper e r).countP ChanEvent.isClose = 1 ∧
      (lookupHelper e r).getLast? = some ChanEvent.close ∧
      (e.isSome = true → ∀ x, ChanEvent.send x ∉ lookupHelper e r) ∧
      (∀ (resolve : Resolver) (host : String) (t : RType),
        ∃ e2 r2, ResolveAsyncChan resolve host t = lookupHelper e2 r2) := by
  intro e r
  refine ⟨?_, ?_, ?_, ?_⟩
  · cases e <;>
      simp [lookupHelper, List.countP_cons, ChanEvent.isClose]
  · cases e <;> rfl
  · intro he x hmem
    cases e with
    | none => simp at he
    | some a =>
      simp only [lookupHelper, List.mem_singleton] at hmem
      exact ChanEvent.noConfusion hmem
  · intro resolve host t
    cases hres : resolve host t ClassCode.INET with
    | error e2 => exact ⟨some e2, none, by simp [ResolveAsyncChan, hres]⟩
    | ok r2 => exact ⟨none, some r2, by simp [ResolveAsyncChan, hres]⟩

/-- Claim C4, witness: the close-exactly-once theorem applied to the error
path at a concrete error, its no-send clause discharged at a concrete
payload. -/
theorem C4_channel_closed_once_witness :
    (lookupHelper (some "resolver failure") none).countP ChanEvent.isClose
        = 1 ∧
    ChanEvent.send none ∉ lookupHelper (some "resolver failure") none :=
  ⟨(C4_channel_closed_once (some "resolver failure") none).1,
   (C4_channel_closed_once (some "resolver failure") none).2.2.1 rfl none⟩

/-- Claim C5: when both family queries succeed, LookupIP returns the IPv4
addresses in resolver order followed by the IPv6 addresses in resolver
order (with the nil error the source never assigns), and LookupHost
returns exactly the string forms of those addresses in the same order. -/
theorem C5_family_order :
    ∀ (resolve : Resolver) (ipString : IP → String) (host cn1 cn2 : String)
      (la : List RR_A) (laaaa : List RR_AAAA),
      resolve host RType.A ClassCode.INET = Except.ok ⟨cn1, la.map RR.A⟩ →
      resolve host RType.AAAA ClassCode.INET =
        Except.ok ⟨cn2, laaaa.map RR.AAAA⟩ →
      LookupIP resolve host =
        some (la.map RR_A.A ++ laaaa.map RR_AAAA.AAAA, none) ∧
      LookupHost ipString resolve host =
        some ((la.map RR_A.A ++ laaaa.map RR_AAAA.AAAA).map ipString, none) := by
  intro resolve ipString host cn1 cn2 la laaaa hA hAAAA
  have h1 : LookupIP resolve host
      = some (la.map RR_A.A ++ laaaa.map RR_AAAA.AAAA, none) := by
    simp [LookupIP, ResolveAsyncChan, hA, hAAAA, lookupHelper, recvClosed,
      downcastAll_asA_map, downcastAll_asAAAA_map]
  exact ⟨h1, by simp [LookupHost, h1]⟩

/-- A concrete resolver on which both families succeed. -/
def c5res : Resolver := fun _ t _ =>
  match t with
  | RType.A => Except.ok ⟨"", [RR.A ⟨⟨[192, 0, 2, 7]⟩⟩]⟩
  | RType.AAAA => Except.ok ⟨"", [RR.AAAA ⟨⟨[0, 1]⟩⟩]⟩
  | _ => Except.error "unused"

/-- Claim C5, witness: the ordering theorem applied to a concrete resolver
with one address per family. -/
theorem C5_family_order_witness :
    LookupIP c5res "example.com" = some ([⟨[192, 0, 2, 7]⟩, ⟨[0, 1]⟩], none) ∧
    LookupHost (fun _ => "addr") c5res "example.com" =
      some (["addr", "addr"], none) := by
  have h := C5_family_order c5res (fun _ => "addr") "example.com" "" ""
    [⟨⟨[192, 0, 2, 7]⟩⟩] [⟨⟨[0, 1]⟩⟩] rfl rfl
  exact ⟨h.1.trans (by decide), h.2.trans (by decide)⟩

/-- Claim C6: LookupSRV issues exactly one SRV/INET query, for the name
given by srvSpecName (the plain name when service and proto are both
empty, otherwise the underscore concatenation, with no other
normalization), and its whole result is a function of the resolver value
at that single query. -/
theorem C6_query_name :
    ∀ (resolve : Resolver) (s p n : String),
      LookupSRV resolve s p n =
        srvProcess (resolve (srvSpecName s p n) RType.SRV ClassCode.INET) :=
  lookupSRV_query_eq

/-- Claim C7: every non-panicking return of LookupSRV carries the empty
canonical-name string, on the error path and the success path alike. -/
theorem C7_cname_always_empty :
    ∀ (resolve : Resolver) (s p n : String)
      (out : String × List RR_SRV × Option Err),
      LookupSRV resolve s p n = some out → out.1 = "" := by
  intro resolve s p n out h
  rw [lookupSRV_query_eq] at h
  cases hres : resolve (srvSpecName s p n) RType.SRV ClassCode.INET with
  | error e =>
    rw [hres] at h
    simp only [srvProcess, Option.some.injEq] at h
    rw [← h]
  | ok r =>
    rw [hres] at h
    simp only [srvProcess] at h
    cases hdc : downcastAll RR.asSRV r.Rr with
    | none =>
      rw [hdc] at h
      simp at h
    | some dec =>
      rw [hdc] at h
      simp only [Option.some.injEq] at h
      rw [← h]

/-- A concrete resolver whose SRV response carries a canonical name. -/
def c7res : Resolver := fun _ _ _ =>
  Except.ok ⟨"the-canonical-name", [RR.SRV ⟨1, 2, 3, "t"⟩]⟩

/-- Claim C7, witness: even when the response carries a canonical name,
the returned one is empty. -/
theorem C7_cname_always_empty_witness :
    (("", [(⟨1, 2, 3, "t"⟩ : RR_SRV)], (none : Option Err)) :
      String × List RR_SRV × Option Err).1 = "" :=
  C7_cname_always_empty c7res "ldap" "tcp" "example.com" _ (by decide)

/-- Claim C8, counterexample: the claim says reverse lookup never returns
an empty name list together with a nil error for a valid address.  For the
valid address 1.2.3.4, whose reverse conversion succeeds, a resolver that
succeeds with zero PTR records makes LookupAddr return exactly the empty
list with a nil error. -/
theorem C8_counterexample :
    LookupAddr (fun _ => Except.ok "4.3.2.1.in-addr.arpa.")
      (fun _ _ _ => Except.ok ⟨"", []⟩) "1.2.3.4" = some ([], none) := by
  decide

/-- Claim C8, amended: when the reverse conversion succeeds and the
resolver answers with PTR records, LookupAddr returns exactly their Ptr
names with a nil error, and that list is non-empty whenever the resolver
returned at least one record; a successful answer with zero records yields
the empty list with a nil error. -/
theorem C8_names_or_error :
    ∀ (reverseAddr : String → Except Err String) (resolve : Resolver)
      (addr rev cn : String) (ptrs : List RR_PTR),
      reverseAddr addr = Except.ok rev →
      resolve rev RType.PTR ClassCode.INET = Except.ok ⟨cn, ptrs.map RR.PTR⟩ →
      LookupAddr reverseAddr resolve addr =
        some (ptrs.map RR_PTR.Ptr, none) ∧
      (ptrs ≠ [] → ptrs.map RR_PTR.Ptr ≠ []) := by
  intro ra resolve addr rev cn ptrs h1 h2
  refine ⟨by simp [LookupAddr, h1, h2, downcastAll_asPTR_map], ?_⟩
  intro hne
  simpa using hne

/-- A concrete resolver answering one PTR record. -/
def c8res : Resolver := fun _ _ _ =>
  Except.ok ⟨"", [RR.PTR ⟨"host.example.com."⟩]⟩

/-- Claim C8, witness: the amended theorem at a concrete valid address
with one PTR record in the answer. -/
theorem C8_names_or_error_witness :
    LookupAddr (fun _ => Except.ok "4.3.2.1.in-addr.arpa.") c8res "1.2.3.4" =
      some (["host.example.com."], none) ∧
    (["host.example.com."] : List String) ≠ [] := by
  have h := C8_names_or_error (fun _ => Except.ok "4.3.2.1.in-addr.arpa.")
    c8res "1.2.3.4" "4.3.2.1.in-addr.arpa." "" [⟨"host.example.com."⟩]
    rfl rfl
  exact ⟨h.1.trans (by decide), h.2 (by decide)⟩

/-- Claim C9: single-query lookups fail fast with no partial data.  A
reverse-conversion failure is returned at once and the result does not
depend on the resolver (no query is issued); a resolver error makes
LookupAddr, LookupMX and LookupTXT return the empty list together with
exactly that error. -/
theorem C9_fail_fast :
    ∀ (reverseAddr : String → Except Err String) (r1 r2 resolve : Resolver)
      (addr rev nm : String) (e : Err),
      (reverseAddr addr = Except.error e →
        LookupAddr reverseAddr r1 addr = some ([], some e) ∧
        LookupAddr reverseAddr r1 addr = LookupAddr reverseAddr r2 addr) ∧
      (reverseAddr addr = Except.ok rev →
        resolve rev RType.PTR ClassCode.INET = Except.error e →
        LookupAddr reverseAddr resolve addr = some ([], some e)) ∧
      (resolve nm RType.MX ClassCode.INET = Except.error e →
        LookupMX resolve nm = some ([], some e)) ∧
      (resolve nm RType.TXT ClassCode.INET = Except.error e →
        LookupTXT resolve nm = some ([], some e)) := by
  intro ra r1 r2 resolve addr rev nm e
  refine ⟨fun h => ⟨by simp [LookupAddr, h], by simp [LookupAddr, h]⟩,
          fun h1 h2 => by simp [LookupAddr, h1, h2],
          fun h => by simp [LookupMX, h],
          fun h => by simp [LookupTXT, h]⟩

/-- Claim C9, witness: fail-fast behavior at a concrete conversion failure
and at concrete MX and TXT resolver errors. -/
theorem C9_fail_fast_witness :
    LookupAddr (fun _ => Except.error "bad address")
      (fun _ _ _ => Except.ok ⟨"", []⟩) "zzz" =
      some ([], some "bad address") ∧
    LookupMX (fun _ _ _ => Except.error "mx down") "example.com" =
      some ([], some "mx down") ∧
    LookupTXT (fun _ _ _ => Except.error "txt down") "example.com" =
      some ([], some "txt down") :=
  ⟨((C9_fail_fast (fun _ => Except.error "bad address")
      (fun _ _ _ => Except.ok ⟨"", []⟩) (fun _ _ _ => Except.ok ⟨"", []⟩)
      (fun _ _ _ => Except.ok ⟨"", []⟩)
      "zzz" "" "" "bad address").1 rfl).1,
   (C9_fail_fast (fun _ => Except.error "")
      (fun _ _ _ => Except.ok ⟨"", []⟩) (fun _ _ _ => Except.ok ⟨"", []⟩)
      (fun _ _ _ => Except.error "mx down")
      "" "" "example.com" "mx down").2.2.1 rfl,
   (C9_fail_fast (fun _ => Except.error "")
      (fun _ _ _ => Except.ok ⟨"", []⟩) (fun _ _ _ => Except.ok ⟨"", []⟩)
      (fun _ _ _ => Except.error "txt down")
      "" "" "example.com" "txt down").2.2.2 rfl⟩

/-- Claim C10: LookupSRV is deterministic.  With an explicit entropy
stream threaded through the call, the result is identical for any two
streams (so identical across repeated calls, equal-priority bands
included) and the stream comes back unconsumed: the source makes no
random choice. -/
theorem C10_deterministic :
    ∀ (entropy1 entropy2 : List Nat) (resolve : Resolver) (s p n : String),
      (LookupSRVWithEntropy entropy1 resolve s p n).1 =
        (LookupSRVWithEntropy entropy2 resolve s p n).1 ∧
      (LookupSRVWithEntropy entropy1 resolve s p n).2 = entropy1 :=
  fun _ _ _ _ _ _ => ⟨rfl, rfl⟩
